import Mathlib

/-!
Verification development for the duckdb-sshfs extension.

The definitions below are a shallow embedding of the relevant parts of the
source: the connect/retry loop, the session keepalive configuration, the
algorithm preference lists, the SFTP session pool and its SFTP-only
operations, the URL parsing of the remote path, the credential validation of
the facade, and the chunked write pipeline of the file handle. Each
definition carries a comment pointing at the function it embeds.
-/

namespace SSHFS

/-! ## Connect retry loop (SSHClient::Connect, part_004 lines 129-255) -/

/-- Outcome of one connection attempt, as classified by the catch block in
SSHClient::Connect: an IOException whose message contains the substring
"authentication failed" (all throws of SSHClient::Authenticate start with
"SSH authentication failed for ...") is rethrown immediately; every other
IOException counts as a retryable failure. -/
inductive AttemptOutcome
  | success
  | authFailure
  | otherFailure
deriving DecidableEq

inductive ConnectResult
  | ok
  | authError
  | exhausted
deriving DecidableEq

/-- Observable trace of SSHClient::Connect: final result, the back-off delays
slept (in order, milliseconds), and the number of connection attempts made. -/
structure ConnectTrace where
  result : ConnectResult
  sleeps : List Nat
  attempts : Nat
deriving DecidableEq

/-- The loop body of SSHClient::Connect. The C++ loop runs with
`attempt` from 0 while `attempt <= max_retries`; here `remaining` is
`max_retries - attempt`, so `remaining = 0` iff `attempt >= max_retries`.
At the top of an iteration with `attempt > 0` the loop sleeps
`retry_delay_ms`; on a retryable failure it doubles `retry_delay_ms` and
increments `attempt` (part_004 lines 147-153 and 244-252). -/
def ConnectLoopAux (outcomes : Nat → AttemptOutcome) : Nat → Nat → Nat → ConnectTrace
  | delay, attempt, remaining =>
    let sleepsHere : List Nat := if 0 < attempt then [delay] else []
    match outcomes attempt with
    | .success => ⟨.ok, sleepsHere, 1⟩
    | .authFailure => ⟨.authError, sleepsHere, 1⟩
    | .otherFailure =>
      match remaining with
      | 0 => ⟨.exhausted, sleepsHere, 1⟩
      | r + 1 =>
        let rest := ConnectLoopAux outcomes (delay * 2) (attempt + 1) r
        ⟨rest.result, sleepsHere ++ rest.sleeps, rest.attempts + 1⟩

/-- SSHClient::Connect: `retry_delay_ms` starts at
`params.initial_retry_delay_ms` and `attempt` at 0. -/
def Connect (outcomes : Nat → AttemptOutcome) (maxRetries initialRetryDelayMs : Nat) :
    ConnectTrace :=
  ConnectLoopAux outcomes initialRetryDelayMs 0 maxRetries

/-! ## Keepalive configuration (SSHClient::InitializeSession,
part_004 lines 272-281 and 389-390) -/

/-- The libssh2 keepalive configuration of a session: whether the client
waits for replies, and the send cadence in seconds. `none` models a session
on which libssh2_keepalive_config was never called. -/
structure KeepaliveState where
  wantReply : Bool
  interval : Nat
deriving DecidableEq

/-- Lines 277-281: before the handshake, when `keepalive_interval > 0`,
`libssh2_keepalive_config(session, 0, params.keepalive_interval)`. -/
def keepaliveBeforeHandshake (keepaliveInterval : Nat) : Option KeepaliveState :=
  if 0 < keepaliveInterval then some ⟨false, keepaliveInterval⟩ else none

/-- Line 390: after the handshake succeeds, unconditionally
`libssh2_keepalive_config(session, 1, 60)`, replacing whatever was
configured before. -/
def keepaliveAfterHandshake (_before : Option KeepaliveState) : Option KeepaliveState :=
  some ⟨true, 60⟩

/-- The keepalive configuration a session carries when
SSHClient::InitializeSession returns. -/
def InitializeSessionKeepalive (keepaliveInterval : Nat) : Option KeepaliveState :=
  keepaliveAfterHandshake (keepaliveBeforeHandshake keepaliveInterval)

/-! ## Algorithm preference lists (SSHClient::InitializeSession,
part_004 lines 283-315). The lists are fixed string constants; the
`strict_crypto` connection parameter is never read by InitializeSession,
which the Bool parameter below makes explicit. -/

/-- The KEX preference list passed to libssh2_session_method_pref. -/
def kex_algorithms (_strictCrypto : Bool) : List String :=
  ["curve25519-sha256", "curve25519-sha256@libssh.org",
   "ecdh-sha2-nistp256", "ecdh-sha2-nistp384", "ecdh-sha2-nistp521",
   "diffie-hellman-group14-sha256",
   "diffie-hellman-group-exchange-sha256",
   "diffie-hellman-group16-sha512",
   "diffie-hellman-group18-sha512",
   "diffie-hellman-group14-sha1"]

/-- The host-key preference list passed to libssh2_session_method_pref. -/
def hostkey_algorithms (_strictCrypto : Bool) : List String :=
  ["ssh-ed25519",
   "ecdsa-sha2-nistp256", "ecdsa-sha2-nistp384", "ecdsa-sha2-nistp521",
   "rsa-sha2-256", "rsa-sha2-512", "ssh-rsa"]

/-! ## SFTP session pool (SSHClient::BorrowSFTPSession /
ReturnSFTPSession, part_004 lines 1149-1177) and the SFTP-only
operations RemoveDirectorySFTP (lines 1319-1335) and TruncateFileSFTP
(lines 1337-1369). Sessions are identified by numbers; the pool is the
std::queue of idle sessions, front first. -/

/-- BorrowSFTPSession pops the front of the pool queue; an empty pool makes
the caller block on the condition variable, modelled as `none`. -/
def BorrowSFTPSession (pool : List Nat) : Option (Nat × List Nat) :=
  match pool with
  | [] => none
  | s :: rest => some (s, rest)

/-- ReturnSFTPSession pushes the session onto the back of the pool queue. -/
def ReturnSFTPSession (pool : List Nat) (sftp : Nat) : List Nat :=
  pool ++ [sftp]

/-- SSHClient::RemoveDirectorySFTP. `rmdirOk` is whether
libssh2_sftp_rmdir returned 0. The body returns the session inside the try
block and then, when rc is nonzero, throws; the catch-all block returns the
same session a second time before rethrowing. Result: final pool and
whether an exception propagated. -/
def RemoveDirectorySFTP (pool : List Nat) (rmdirOk : Bool) : Option (List Nat × Bool) :=
  match BorrowSFTPSession pool with
  | none => none
  | some (sftp, pool1) =>
    let pool2 := ReturnSFTPSession pool1 sftp
    if rmdirOk then
      some (pool2, false)
    else
      some (ReturnSFTPSession pool2 sftp, true)

/-- SSHClient::TruncateFileSFTP. `openOk` is whether libssh2_sftp_open
succeeded, `fsetstatOk` whether libssh2_sftp_fsetstat returned 0. On the
open failure the body returns the session and throws inside the try block,
and the catch-all returns it again; on the fsetstat failure the session was
already returned before the throw, and the catch-all returns it again. -/
def TruncateFileSFTP (pool : List Nat) (openOk fsetstatOk : Bool) :
    Option (List Nat × Bool) :=
  match BorrowSFTPSession pool with
  | none => none
  | some (sftp, pool1) =>
    if openOk then
      let pool2 := ReturnSFTPSession pool1 sftp
      if fsetstatOk then
        some (pool2, false)
      else
        some (ReturnSFTPSession pool2 sftp, true)
    else
      some (ReturnSFTPSession (ReturnSFTPSession pool1 sftp) sftp, true)

/-! ## Remote path extraction (SSHFSFileSystem::ParseURL,
sshfs_filesystem.cpp lines 298-312). The regex places the path component,
separator included, in match[4]; the code then strips a leading colon and
keeps everything else, a leading slash included, as-is. -/

/-- The treatment of the matched path component: if it is nonempty and its
first character is a colon the colon is removed (SCP style); otherwise the
component is kept exactly as it appears. -/
def parseRemotePath (m : String) : String :=
  if m.data.head? = some ':' then ⟨m.data.tail⟩ else m

/-! ## Credential validation of the facade (SSHFSFileSystem::ParseURL,
sshfs_filesystem.cpp lines 493-501) and the method order of
SSHClient::Authenticate (part_004 lines 393-605). -/

/-- The connection parameters after URL, SSH config and secret resolution,
restricted to the fields the validation and the authentication method
selection read. -/
structure ResolvedParams where
  username : String
  password : String
  key_path : String
  use_agent : Bool
deriving DecidableEq

inductive ConfigError
  | missingUsername
  | missingCredential
deriving DecidableEq

/-- Lines 493-501 of sshfs_filesystem.cpp: ParseURL throws when the username
is empty, and then when both password and key_path are empty; `use_agent`
and the environment are not consulted. -/
def validateAuthParams (p : ResolvedParams) : Option ConfigError :=
  if p.username = "" then some .missingUsername
  else if p.password = "" ∧ p.key_path = "" then some .missingCredential
  else none

inductive FacadeEvent
  | parseURLCall
  | connectCall
deriving DecidableEq

/-- Every facade operation (OpenFile, FileExists, RemoveFile, MoveFile,
CreateDirectory, DirectoryExists, RemoveDirectory, ...) first calls
ParseURL and only afterwards GetOrCreateClient / Connect; when ParseURL
throws, no connection attempt happens. The trace lists the calls made and
the configuration error, if any. -/
def facadeOpTrace (p : ResolvedParams) : List FacadeEvent × Option ConfigError :=
  match validateAuthParams p with
  | some e => ([.parseURLCall], some e)
  | none => ([.parseURLCall, .connectCall], none)

inductive AuthMethod
  | passwordAuth
  | publickeyAuth
  | agentAuth
  | agentEnvFallback
  | noMethod
deriving DecidableEq

/-- The first authentication method SSHClient::Authenticate commits to:
password when a password is configured, else key file when a key path is
configured, else the agent when use_agent is set, else the deprecated
SSH_AUTH_SOCK fallback, else no method. -/
def AuthenticateMethod (p : ResolvedParams) (sshAuthSockSet : Bool) : AuthMethod :=
  if p.password ≠ "" then .passwordAuth
  else if p.key_path ≠ "" then .publickeyAuth
  else if p.use_agent then .agentAuth
  else if sshAuthSockSet then .agentEnvFallback
  else .noMethod

/-! ## Write pipeline (SSHFSFileHandle, part_006). The handle state keeps
the size of the accumulating write buffer, the dirty flag, chunk_count,
the part indices of dispatched-but-unfinished uploads (uploads_in_progress
is its length), the first-error machinery, the list of UploadChunk calls
dispatched so far as (part index, append flag) pairs, and
total_bytes_written. Uploader completions are driven by a schedule: a list
of part indices in completion order, with `fails p` telling whether the
uploader of part p threw. -/

structure PState where
  buf : Nat
  dirty : Bool
  chunkCount : Nat
  inFlight : List Nat
  hasError : Bool
  firstError : Option Nat
  dispatched : List (Nat × Bool)
  totalBytesWritten : Nat
deriving DecidableEq

/-- The exception CheckUploadErrors throws: the rethrown captured first
upload error, or the generic IOException when no exception was captured. -/
inductive UploadError
  | captured (part : Nat)
  | generic
deriving DecidableEq

/-- The value SSHFSFileHandle::CheckUploadErrors raises when
has_upload_error is set (part_006 lines 391-398). -/
def raisedError (st : PState) : UploadError :=
  match st.firstError with
  | some p => .captured p
  | none => .generic

/-- Tail of the detached uploader thread for part p (part_006 lines
442-458): on failure the first failing uploader publishes its error via
compare_exchange on has_upload_error and sets first_upload_error; then the
in-progress counter is decremented. `none` when p is not in flight. -/
def consumeCompletion (fails : Nat → Bool) (st : PState) (p : Nat) : Option PState :=
  if st.inFlight.contains p then
    some { st with
      inFlight := st.inFlight.erase p,
      hasError := st.hasError || fails p,
      firstError := if !st.hasError && fails p then some p else st.firstError }
  else none

/-- A condition-variable wait: while `cond` holds, the thread consumes the
next completion event from the schedule; it resumes once `cond` fails.
`none` when the schedule runs dry or names a part not in flight. -/
def waitWhile (cond : PState → Bool) (fails : Nat → Bool) :
    PState → List Nat → Option (PState × List Nat)
  | st, [] => if cond st then none else some (st, [])
  | st, p :: rest =>
    if cond st then
      match consumeCompletion fails st p with
      | none => none
      | some st1 => waitWhile cond fails st1 rest
    else some (st, p :: rest)

/-- SSHFSFileHandle::FlushChunk (part_006 lines 263-317): return early on
an empty buffer; CheckUploadErrors; wait while uploads_in_progress is at
max_concurrent_uploads and no error is flagged; CheckUploadErrors again;
then seal the buffer as part chunk_count, dispatch its uploader (which will
call UploadChunk with append = (part is not 0)), clear the buffer and the
dirty flag and increment chunk_count. The middle component of the result is
the exception FlushChunk raises, if any. -/
def FlushChunk (W : Nat) (fails : Nat → Bool) (st : PState) (order : List Nat) :
    Option (PState × Option UploadError × List Nat) :=
  if st.buf = 0 then some (st, none, order)
  else if st.hasError then some (st, some (raisedError st), order)
  else
    match waitWhile (fun s => decide (W ≤ s.inFlight.length) && !s.hasError) fails st order with
    | none => none
    | some (st1, order1) =>
      if st1.hasError then some (st1, some (raisedError st1), order1)
      else
        let part := st1.chunkCount
        some ({ st1 with
                  buf := 0, dirty := false, chunkCount := part + 1,
                  inFlight := st1.inFlight ++ [part],
                  dispatched := st1.dispatched ++ [(part, part != 0)] },
              none, order1)

/-- SSHFSFileHandle::Flush (part_006 lines 143-147): FlushChunk only when
the buffer is nonempty and dirty. -/
def Flush (W : Nat) (fails : Nat → Bool) (st : PState) (order : List Nat) :
    Option (PState × Option UploadError × List Nat) :=
  if st.buf ≠ 0 ∧ st.dirty = true then FlushChunk W fails st order
  else some (st, none, order)

/-- SSHFSFileHandle::Close (part_006 lines 52-109): flush when the buffer is
nonempty or dirty, rethrowing a flush exception; then, when chunk_count is
positive, wait on the condition variable until uploads_in_progress reaches
zero and run CheckUploadErrors. -/
def Close (W : Nat) (fails : Nat → Bool) (st : PState) (order : List Nat) :
    Option (PState × Option UploadError × List Nat) :=
  let step1 :=
    if st.buf ≠ 0 ∨ st.dirty = true then Flush W fails st order
    else some (st, none, order)
  match step1 with
  | none => none
  | some (st1, some e, order1) => some (st1, some e, order1)
  | some (st1, none, order1) =>
    if 0 < st1.chunkCount then
      match waitWhile (fun s => !s.inFlight.isEmpty) fails st1 order1 with
      | none => none
      | some (st2, order2) =>
        if st2.hasError then some (st2, some (raisedError st2), order2)
        else some (st2, none, order2)
    else some (st1, none, order1)

/-- The loop of SSHFSFileHandle::Write (part_006 lines 119-135): append
min(chunk_size - buffered, remaining) bytes, mark the buffer dirty, and
FlushChunk whenever the buffer reaches chunk_size. A FlushChunk exception
propagates out of Write. The fuel argument only bounds the recursion; each
productive iteration consumes at least one byte of `remaining`, and a
non-productive iteration (possible only when chunk_size is 0, where the
real loop never terminates) yields `none`. -/
def WriteLoop (chunkSize W : Nat) (fails : Nat → Bool) :
    Nat → Nat → PState → List Nat → Option (PState × Option UploadError × List Nat)
  | _, 0, st, order => some (st, none, order)
  | 0, _ + 1, _, _ => none
  | fuel + 1, remaining, st, order =>
    let space := chunkSize - st.buf
    let toWrite := min space remaining
    if toWrite = 0 then none
    else
      let st1 := { st with buf := st.buf + toWrite, dirty := true }
      if chunkSize ≤ st1.buf then
        match FlushChunk W fails st1 order with
        | none => none
        | some (st2, some e, order2) => some (st2, some e, order2)
        | some (st2, none, order2) =>
          WriteLoop chunkSize W fails fuel (remaining - toWrite) st2 order2
      else WriteLoop chunkSize W fails fuel (remaining - toWrite) st1 order

/-- SSHFSFileHandle::Write (part_006 lines 111-141): a non-positive byte
count returns 0 immediately without touching any state; otherwise the loop
runs and, on normal completion, total_bytes_written is increased by
nr_bytes. -/
def Write (chunkSize W : Nat) (fails : Nat → Bool) (st : PState) (order : List Nat)
    (nrBytes : Int) : Option (PState × Option UploadError × List Nat) :=
  if nrBytes ≤ 0 then some (st, none, order)
  else
    match WriteLoop chunkSize W fails nrBytes.toNat nrBytes.toNat st order with
    | none => none
    | some (st1, some e, order1) => some (st1, some e, order1)
    | some (st1, none, order1) =>
      some ({ st1 with totalBytesWritten := st1.totalBytesWritten + nrBytes.toNat },
            none, order1)

/-- The handle state right after the SSHFSFileHandle constructor (part_006
lines 30-42): empty buffer, clean, nothing dispatched, no error. -/
def initialHandleState : PState :=
  { buf := 0, dirty := false, chunkCount := 0, inFlight := [],
    hasError := false, firstError := none, dispatched := [],
    totalBytesWritten := 0 }

/-- Concrete entry state for exercising Close: one chunk already dispatched
and in flight, 3 bytes accumulated and dirty, no error yet. -/
def closeEntryState : PState :=
  { buf := 3, dirty := true, chunkCount := 1, inFlight := [0],
    hasError := false, firstError := none, dispatched := [(0, false)],
    totalBytesWritten := 3 }

/-- The state the Close run from closeEntryState with schedule [0, 1] and a
failure of part 1 ends in: flushed, quiescent, error captured for part 1. -/
def closeExitState : PState :=
  { buf := 0, dirty := false, chunkCount := 2, inFlight := [],
    hasError := true, firstError := some 1,
    dispatched := [(0, false), (1, true)], totalBytesWritten := 3 }

/-- A reachable close-entry state in which an upload error is already
recorded: 10 bytes written with chunk_size 4, parts 0 and 1 dispatched,
part 0 already failed (error captured), part 1 still in flight, 2 bytes in
the dirty remainder buffer. -/
def closeErrorEntryState : PState :=
  { buf := 2, dirty := true, chunkCount := 2, inFlight := [1],
    hasError := true, firstError := some 0,
    dispatched := [(0, false), (1, true)], totalBytesWritten := 10 }

/-- A reachable close-entry state at full concurrency width W = 2: parts 0
and 1 both in flight, no error recorded yet, 2 bytes in the dirty
remainder buffer. -/
def closeFullWidthEntryState : PState :=
  { buf := 2, dirty := true, chunkCount := 2, inFlight := [0, 1],
    hasError := false, firstError := none,
    dispatched := [(0, false), (1, true)], totalBytesWritten := 10 }

/-! ## Wire order of UploadChunk calls (SSHFSFileHandle::FlushChunk and
UploadChunkAsync, part_006 lines 285-307 and 400-462; SSHClient::UploadChunk,
part_004 lines 707-824). The producer dispatches parts 0,1,2,... in order,
blocked while uploads_in_progress equals max_concurrent_uploads; each
dispatched part runs on its own detached thread, and the threads contend
for the per-client upload_mutex with no ordering between them. An `acquire p`
event is the uploader of part p winning upload_mutex and issuing its
UploadChunk call (completion and the counter decrement folded into the same
step, which only permits earlier dispatches and so only adds schedules). -/

structure WireState where
  nextPart : Nat
  inFlight : List Nat
  wire : List Nat
deriving DecidableEq

inductive WireEvent
  | dispatch
  | acquire (p : Nat)
deriving DecidableEq

def wireStep (W : Nat) (st : WireState) : WireEvent → Option WireState
  | .dispatch =>
    if st.inFlight.length < W then
      some ⟨st.nextPart + 1, st.inFlight ++ [st.nextPart], st.wire⟩
    else none
  | .acquire p =>
    if st.inFlight.contains p then
      some ⟨st.nextPart, st.inFlight.erase p, st.wire ++ [p]⟩
    else none

def wireRun (W : Nat) : WireState → List WireEvent → Option WireState
  | st, [] => some st
  | st, e :: es =>
    match wireStep W st e with
    | none => none
    | some st1 => wireRun W st1 es

def initWireState : WireState := ⟨0, [], []⟩

/-! ## Theorems -/

/-- Claim C1: the claim says the server observes the UploadChunk calls of a
write handle in strictly increasing part-index order for every
max_concurrent_uploads W >= 1. With the default W = 2 the producer may
dispatch parts 0 and 1 concurrently and nothing orders the detached
uploader threads at upload_mutex: the schedule below is a valid run in
which the wire sees part 1 before part 0, violating the claimed order. -/
theorem upload_order_violation :
    wireRun 2 initWireState
        [WireEvent.dispatch, WireEvent.dispatch, WireEvent.acquire 1, WireEvent.acquire 0] =
      some ⟨2, [], [1, 0]⟩ ∧
    ¬ List.Chain' (· < ·) [1, 0] :=
  ⟨rfl, fun h => absurd (List.chain'_cons.mp h).1 (by omega)⟩

/-- Helper: a successful dispatch step requires a free upload slot and
appends the next part to the in-flight list. -/
theorem wireStep_dispatch_inv (W : Nat) (st st1 : WireState)
    (h : wireStep W st WireEvent.dispatch = some st1) :
    st.inFlight.length < W ∧
      st1 = ⟨st.nextPart + 1, st.inFlight ++ [st.nextPart], st.wire⟩ := by
  simp only [wireStep] at h
  split at h
  next hlen => exact ⟨hlen, by injection h with h1; exact h1.symm⟩
  next => exact Option.noConfusion h

/-- Helper: a successful acquire step takes an in-flight part and appends
it to the wire. -/
theorem wireStep_acquire_inv (W : Nat) (st st1 : WireState) (p : Nat)
    (h : wireStep W st (WireEvent.acquire p) = some st1) :
    p ∈ st.inFlight ∧
      st1 = ⟨st.nextPart, st.inFlight.erase p, st.wire ++ [p]⟩ := by
  simp only [wireStep] at h
  split at h
  next hmem => exact ⟨by simpa using hmem, by injection h with h1; exact h1.symm⟩
  next => exact Option.noConfusion h

/-- Supporting result (not a claim): with max_concurrent_uploads = 1 the
backpressure in FlushChunk does serialise the uploads, and every valid run
produces a wire order that is strictly increasing. -/
theorem wireRun_inv_W1 (events : List WireEvent) :
    ∀ st st2 : WireState, wireRun 1 st events = some st2 →
      st.wire ++ st.inFlight = List.range st.nextPart → st.inFlight.length ≤ 1 →
      st2.wire ++ st2.inFlight = List.range st2.nextPart ∧ st2.inFlight.length ≤ 1 := by
  induction events with
  | nil =>
    intro st st2 h hr hl
    simp only [wireRun, Option.some.injEq] at h
    subst h; exact ⟨hr, hl⟩
  | cons e es ih =>
    intro st st2 h hr hl
    have hrun : (match wireStep 1 st e with
        | none => none
        | some st1 => wireRun 1 st1 es) = some st2 := h
    cases hstep : wireStep 1 st e with
    | none => rw [hstep] at hrun; exact Option.noConfusion hrun
    | some st1 =>
      rw [hstep] at hrun
      have hinv1 : st1.wire ++ st1.inFlight = List.range st1.nextPart ∧
          st1.inFlight.length ≤ 1 := by
        cases e with
        | dispatch =>
          obtain ⟨hlen, heq⟩ := wireStep_dispatch_inv 1 st st1 hstep
          have hnil : st.inFlight = [] := List.length_eq_zero.mp (by omega)
          have hw : st.wire = List.range st.nextPart := by simpa [hnil] using hr
          subst heq
          constructor
          · simp [hnil, hw, List.range_succ]
          · simp [hnil]
        | acquire p =>
          obtain ⟨hp, heq⟩ := wireStep_acquire_inv 1 st st1 p hstep
          have hsing : st.inFlight = [p] := by
            rcases hif : st.inFlight with _ | ⟨q, _ | ⟨r, rs⟩⟩
            · rw [hif] at hp; simp at hp
            · rw [hif] at hp; simp at hp; rw [hp]
            · rw [hif] at hl; simp at hl
          have hw : st.wire ++ [p] = List.range st.nextPart := by rw [← hr, hsing]
          subst heq
          constructor
          · simp [hsing, hw]
          · simp [hsing]
      exact ih st1 st2 hrun hinv1.1 hinv1.2

/-- Supporting result (not a claim): wire order is strictly increasing when
W = 1, from the invariant that wire ++ inFlight enumerates the dispatched
parts in order. -/
theorem upload_order_enforced_when_W1 (events : List WireEvent) (st2 : WireState)
    (h : wireRun 1 initWireState events = some st2) :
    List.Chain' (· < ·) st2.wire := by
  have hinv := wireRun_inv_W1 events initWireState st2 h (by simp [initWireState]) (by simp [initWireState])
  have hsub : st2.wire.Sublist (List.range st2.nextPart) := by
    rw [← hinv.1]; exact List.sublist_append_left _ _
  have hpw : st2.wire.Pairwise (· < ·) := (List.pairwise_lt_range st2.nextPart).sublist hsub
  exact hpw.chain'

/-- Claim C2: the claim says the pool never contains a session twice and
every borrow is returned exactly once, also on error paths, in particular
by RemoveDirectorySFTP and TruncateFileSFTP. On their error paths both
return the borrowed session twice (once inside the try block, once in the
catch-all), leaving the pool with a duplicate handle; the success path
returns exactly once. -/
theorem session_pool_double_return :
    RemoveDirectorySFTP [7] false = some ([7, 7], true) ∧
    ¬ ([7, 7] : List Nat).Nodup ∧
    TruncateFileSFTP [5] true false = some ([5, 5], true) ∧
    TruncateFileSFTP [5] false false = some ([5, 5], true) ∧
    RemoveDirectorySFTP [7] true = some ([7], false) ∧
    TruncateFileSFTP [5] true true = some ([5], false) := by
  decide

/-- Claim C5: the claim says that with strict_crypto set the offered KEX and
host-key lists contain no NIST-curve or legacy entries. InitializeSession
never reads strict_crypto: the offer is identical for both flag values and
contains ecdh-sha2-nistp256, ecdsa-sha2-nistp256 and the legacy
diffie-hellman-group14-sha1 and ssh-rsa even when the flag is set. -/
theorem strict_crypto_ignored :
    kex_algorithms true = kex_algorithms false ∧
    hostkey_algorithms true = hostkey_algorithms false ∧
    "ecdh-sha2-nistp256" ∈ kex_algorithms true ∧
    "diffie-hellman-group14-sha1" ∈ kex_algorithms true ∧
    "ecdsa-sha2-nistp256" ∈ hostkey_algorithms true ∧
    "ssh-rsa" ∈ hostkey_algorithms true :=
  ⟨rfl, rfl,
   List.Mem.tail _ (List.Mem.tail _ (List.Mem.head _)),
   List.Mem.tail _ (List.Mem.tail _ (List.Mem.tail _ (List.Mem.tail _ (List.Mem.tail _
     (List.Mem.tail _ (List.Mem.tail _ (List.Mem.tail _ (List.Mem.tail _
       (List.Mem.head _))))))))),
   List.Mem.tail _ (List.Mem.head _),
   List.Mem.tail _ (List.Mem.tail _ (List.Mem.tail _ (List.Mem.tail _ (List.Mem.tail _
     (List.Mem.tail _ (List.Mem.head _))))))⟩

/-- Claim C6: the claim says the session emits keepalives every
keepalive_interval seconds without waiting for replies, and that 0 disables
keepalive. After the handshake InitializeSession unconditionally calls
libssh2_keepalive_config(session, 1, 60), so the session always ends up
configured to send every 60 seconds waiting for replies: interval 0 does
not disable it and a configured interval of 30 is ignored. -/
theorem keepalive_not_configurable :
    InitializeSessionKeepalive 0 = some ⟨true, 60⟩ ∧
    InitializeSessionKeepalive 30 = some ⟨true, 60⟩ ∧
    (∀ i : Nat, InitializeSessionKeepalive i = some ⟨true, 60⟩) :=
  ⟨rfl, rfl, fun _ => rfl⟩

/-- Claim C8 counterexample: the claim says a slash-separated address has
its leading slash stripped, so ssh://user@host/data/file.csv would yield
remote path data/file.csv; ParseURL keeps the matched path component as-is
and yields /data/file.csv. -/
theorem slash_path_not_stripped :
    parseRemotePath "/data/file.csv" = "/data/file.csv" ∧
    ("/data/file.csv" : String) ≠ "data/file.csv" := by
  exact ⟨rfl, by decide⟩

/-- Claim C8 as amended: a colon-separated path is taken exactly as it
appears after the colon (the colon removed), while a slash-separated path
is kept exactly as it appears, leading slash included, with no stripping. -/
theorem remote_path_separator_handling (r : List Char) :
    parseRemotePath ⟨':' :: r⟩ = ⟨r⟩ ∧ parseRemotePath ⟨'/' :: r⟩ = ⟨'/' :: r⟩ :=
  ⟨rfl, rfl⟩

/-- Claim C3 counterexample: the claim says the delay before retry attempt
k is initial_retry_delay_ms * 2^(k-1). With max_retries = 2 and
initial_retry_delay_ms = 10 and every attempt failing retryably, the code
sleeps 20 ms and then 40 ms, not the claimed 10 ms and 20 ms: Connect
doubles retry_delay_ms before its first use. -/
theorem retry_backoff_counterexample :
    Connect (fun _ => AttemptOutcome.otherFailure) 2 10 =
      ⟨ConnectResult.exhausted, [20, 40], 3⟩ ∧
    (Connect (fun _ => AttemptOutcome.otherFailure) 2 10).sleeps ≠
      [10 * 2 ^ 0, 10 * 2 ^ 1] :=
  ⟨rfl, by decide⟩

/-- Helper: on an all-retryable-failure run starting at an attempt index
greater than 0, the sleeps are delay, 2*delay, 4*delay, ... with one sleep
per remaining iteration. -/
theorem connectLoopAux_allFail (outcomes : Nat → AttemptOutcome)
    (hfail : ∀ i, outcomes i = AttemptOutcome.otherFailure) :
    ∀ r a d : Nat, 0 < a →
      ConnectLoopAux outcomes d a r =
        ⟨ConnectResult.exhausted, (List.range (r + 1)).map (fun i => d * 2 ^ i), r + 1⟩ := by
  intro r
  induction r with
  | zero =>
    intro a d ha
    rw [ConnectLoopAux]
    simp [hfail a, ha, List.range_succ]
  | succ r ih =>
    intro a d ha
    have hstep : ConnectLoopAux outcomes d a (r + 1) =
        ⟨(ConnectLoopAux outcomes (d * 2) (a + 1) r).result,
          (if 0 < a then [d] else []) ++ (ConnectLoopAux outcomes (d * 2) (a + 1) r).sleeps,
          (ConnectLoopAux outcomes (d * 2) (a + 1) r).attempts + 1⟩ := by
      conv_lhs => rw [ConnectLoopAux]
      simp [hfail a]
    rw [hstep, ih (a + 1) (d * 2) (by omega)]
    have hlist : (List.range (r + 1 + 1)).map (fun i => d * 2 ^ i) =
        d :: (List.range (r + 1)).map (fun i => d * 2 * 2 ^ i) := by
      rw [List.range_succ_eq_map, List.map_cons, List.map_map]
      simp only [pow_zero, mul_one]
      have hfun : ((fun i => d * 2 ^ i) ∘ Nat.succ) = fun i => d * 2 * 2 ^ i := by
        funext i
        simp only [Function.comp_apply, pow_succ]
        ring
      rw [hfun]
    rw [hlist]
    simp [ha]

/-- Claim C3 as amended: on non-authentication failures the client makes at
most max_retries additional attempts (max_retries + 1 in total when all
fail), and the delay slept before retry attempt k (k = 1..max_retries) is
initial_retry_delay_ms * 2^k milliseconds: the doubling is applied before
the first sleep, so the first retry already waits twice the configured
initial delay. -/
theorem retry_backoff (outcomes : Nat → AttemptOutcome) (m d : Nat)
    (hfail : ∀ i, outcomes i = AttemptOutcome.otherFailure) :
    Connect outcomes m d =
      ⟨ConnectResult.exhausted, (List.range m).map (fun k => d * 2 ^ (k + 1)), m + 1⟩ := by
  unfold Connect
  cases m with
  | zero =>
    rw [ConnectLoopAux]
    simp [hfail 0]
  | succ r =>
    have hstep : ConnectLoopAux outcomes d 0 (r + 1) =
        ⟨(ConnectLoopAux outcomes (d * 2) 1 r).result,
          (ConnectLoopAux outcomes (d * 2) 1 r).sleeps,
          (ConnectLoopAux outcomes (d * 2) 1 r).attempts + 1⟩ := by
      conv_lhs => rw [ConnectLoopAux]
      simp [hfail 0]
    rw [hstep, connectLoopAux_allFail outcomes hfail r 1 (d * 2) (by omega)]
    have hlist : (List.range (r + 1)).map (fun i => d * 2 * 2 ^ i) =
        (List.range (r + 1)).map (fun k => d * 2 ^ (k + 1)) := by
      congr 1
      funext k
      rw [pow_succ]
      ring
    simp [hlist]

/-- Witness for the amended claim C3 at max_retries = 2,
initial_retry_delay_ms = 10: three attempts, sleeping 20 then 40 ms. -/
theorem retry_backoff_witness :
    Connect (fun _ => AttemptOutcome.otherFailure) 2 10 =
      ⟨ConnectResult.exhausted, [20, 40], 3⟩ :=
  (retry_backoff (fun _ => AttemptOutcome.otherFailure) 2 10 (fun _ => rfl)).trans rfl

/-- Helper: when attempts a..a+k-1 fail retryably and attempt a+k fails
with an authentication error, the loop stops right there: result
authError, exactly k+1 attempts from this point, and one sleep per
iteration whose attempt index is positive. -/
theorem connectLoopAux_auth (outcomes : Nat → AttemptOutcome) :
    ∀ k r a d : Nat, k ≤ r →
      (∀ i, a ≤ i → i < a + k → outcomes i = AttemptOutcome.otherFailure) →
      outcomes (a + k) = AttemptOutcome.authFailure →
      (ConnectLoopAux outcomes d a r).result = ConnectResult.authError ∧
      (ConnectLoopAux outcomes d a r).attempts = k + 1 ∧
      (ConnectLoopAux outcomes d a r).sleeps.length = k + (if 0 < a then 1 else 0) := by
  intro k
  induction k with
  | zero =>
    intro r a d _ _ hauth
    have ha : outcomes a = AttemptOutcome.authFailure := by simpa using hauth
    have hstep : ConnectLoopAux outcomes d a r =
        ⟨ConnectResult.authError, if 0 < a then [d] else [], 1⟩ := by
      cases r with
      | zero => rw [ConnectLoopAux]; simp [ha]
      | succ r1 => rw [ConnectLoopAux]; simp [ha]
    rw [hstep]
    refine ⟨rfl, rfl, ?_⟩
    split <;> simp
  | succ k ih =>
    intro r a d hk hpre hauth
    obtain ⟨r1, rfl⟩ : ∃ r1, r = r1 + 1 := ⟨r - 1, by omega⟩
    have hfa : outcomes a = AttemptOutcome.otherFailure := hpre a (Nat.le_refl a) (by omega)
    have hstep : ConnectLoopAux outcomes d a (r1 + 1) =
        ⟨(ConnectLoopAux outcomes (d * 2) (a + 1) r1).result,
          (if 0 < a then [d] else []) ++ (ConnectLoopAux outcomes (d * 2) (a + 1) r1).sleeps,
          (ConnectLoopAux outcomes (d * 2) (a + 1) r1).attempts + 1⟩ := by
      conv_lhs => rw [ConnectLoopAux]
      simp [hfa]
    have hrec := ih r1 (a + 1) (d * 2) (by omega)
      (fun i h1 h2 => hpre i (by omega) (by omega))
      (by
        have hidx : a + 1 + k = a + (k + 1) := by omega
        rw [hidx]; exact hauth)
    rw [hstep]
    refine ⟨hrec.1, by simp [hrec.2.1], ?_⟩
    simp only [List.length_append, hrec.2.2]
    split <;> simp_arith

/-- Claim C4: when attempt j fails with an authentication error (after j
retryable failures), the error surfaces immediately: the run ends with
result authError after exactly j + 1 attempts, and only the j back-off
sleeps that preceded the failing attempt were performed - no sleep follows
the authentication failure and no further attempt is made. -/
theorem auth_failure_not_retried (outcomes : Nat → AttemptOutcome) (m d j : Nat)
    (hj : j ≤ m)
    (hpre : ∀ i, i < j → outcomes i = AttemptOutcome.otherFailure)
    (hauth : outcomes j = AttemptOutcome.authFailure) :
    (Connect outcomes m d).result = ConnectResult.authError ∧
    (Connect outcomes m d).attempts = j + 1 ∧
    (Connect outcomes m d).sleeps.length = j := by
  have h := connectLoopAux_auth outcomes j m 0 d hj
    (fun i h1 h2 => hpre i (by omega)) (by simpa using hauth)
  unfold Connect
  exact ⟨h.1, h.2.1, by simpa using h.2.2⟩

/-- Witness for claim C4: credentials rejected on the very first attempt
with max_retries = 3: one attempt, no sleep, authError. -/
theorem auth_failure_not_retried_witness :
    (Connect (fun _ => AttemptOutcome.authFailure) 3 10).result = ConnectResult.authError ∧
    (Connect (fun _ => AttemptOutcome.authFailure) 3 10).attempts = 0 + 1 ∧
    (Connect (fun _ => AttemptOutcome.authFailure) 3 10).sleeps.length = 0 :=
  auth_failure_not_retried (fun _ => AttemptOutcome.authFailure) 3 10 0 (by omega)
    (fun i hi => absurd hi (Nat.not_lt_zero i)) rfl

/-- Claim C9: when the resolved parameters carry neither a password nor a
key-file path, every facade operation fails inside ParseURL with a
configuration error before any connection attempt, regardless of use_agent
or SSH_AUTH_SOCK; and on parameters that do pass validation, Authenticate
always commits to password or key-file authentication, so the agent paths
are unreachable through the facade. -/
theorem no_credentials_config_error (p : ResolvedParams) (sock : Bool)
    (hpw : p.password = "") (hkey : p.key_path = "") :
    facadeOpTrace p =
      ([FacadeEvent.parseURLCall],
        some (if p.username = "" then ConfigError.missingUsername
              else ConfigError.missingCredential)) ∧
    FacadeEvent.connectCall ∉ (facadeOpTrace p).1 ∧
    (∀ q : ResolvedParams, validateAuthParams q = none →
      AuthenticateMethod q sock = AuthMethod.passwordAuth ∨
      AuthenticateMethod q sock = AuthMethod.publickeyAuth) := by
  have hval : validateAuthParams p =
      some (if p.username = "" then ConfigError.missingUsername
            else ConfigError.missingCredential) := by
    unfold validateAuthParams
    by_cases hu : p.username = ""
    · simp [hu]
    · simp [hu, hpw, hkey]
  refine ⟨?_, ?_, ?_⟩
  · unfold facadeOpTrace
    rw [hval]
  · unfold facadeOpTrace
    rw [hval]
    simp
  · intro q hq
    unfold validateAuthParams at hq
    by_cases hu : q.username = ""
    · simp [hu] at hq
    · by_cases hqp : q.password = ""
      · by_cases hqk : q.key_path = ""
        · simp [hu, hqp, hqk] at hq
        · right
          unfold AuthenticateMethod
          simp [hqp, hqk]
      · left
        unfold AuthenticateMethod
        simp [hqp]

/-- Witness for claim C9: username present, no password, no key, use_agent
set: the facade raises the missing-credential configuration error and never
reaches Connect. -/
theorem no_credentials_config_error_witness :
    facadeOpTrace ⟨"alice", "", "", true⟩ =
      ([FacadeEvent.parseURLCall], some ConfigError.missingCredential) ∧
    FacadeEvent.connectCall ∉ (facadeOpTrace ⟨"alice", "", "", true⟩).1 := by
  have h := no_credentials_config_error ⟨"alice", "", "", true⟩ true rfl rfl
  exact ⟨h.1.trans (by rw [if_neg (by decide)]), h.2.1⟩

/-- Claim C10: on a handle through which zero bytes were written (the
constructor state; Write with a non-positive byte count changes nothing),
Flush and Close are no-ops: no UploadChunk call is dispatched, part 0 is
never emitted, and since only the part-0 call opens the destination with
CREAT, no remote file is created. -/
theorem zero_write_uploads_nothing (chunkSize W : Nat) (fails : Nat → Bool)
    (order : List Nat) (n : Int) (hn : n ≤ 0) :
    Write chunkSize W fails initialHandleState order n =
      some (initialHandleState, none, order) ∧
    Flush W fails initialHandleState order = some (initialHandleState, none, order) ∧
    Close W fails initialHandleState order = some (initialHandleState, none, order) ∧
    initialHandleState.dispatched = [] ∧ initialHandleState.chunkCount = 0 := by
  refine ⟨?_, ?_, ?_, rfl, rfl⟩
  · unfold Write
    rw [if_pos hn]
  · unfold Flush
    rw [if_neg]
    simp [initialHandleState]
  · simp [Close, Flush, initialHandleState]

/-- Witness for claim C10 at a concrete configuration. -/
theorem zero_write_uploads_nothing_witness :
    Write 4 2 (fun _ => false) initialHandleState [] 0 =
      some (initialHandleState, none, []) ∧
    Flush 2 (fun _ => false) initialHandleState [] = some (initialHandleState, none, []) ∧
    Close 2 (fun _ => false) initialHandleState [] = some (initialHandleState, none, []) ∧
    initialHandleState.dispatched = [] ∧ initialHandleState.chunkCount = 0 :=
  zero_write_uploads_nothing 4 2 (fun _ => false) [] 0 (by decide)

/-- Helper: a wait whose condition already fails consumes nothing. -/
theorem waitWhile_not_cond (cond : PState → Bool) (fails : Nat → Bool) (st : PState)
    (order : List Nat) (h : cond st = false) :
    waitWhile cond fails st order = some (st, order) := by
  cases order with
  | nil => simp [waitWhile, h]
  | cons p rest => simp [waitWhile, h]

/-- Helper: a wait only resumes in a state where its condition fails. -/
theorem waitWhile_exit_cond (cond : PState → Bool) (fails : Nat → Bool) :
    ∀ (order : List Nat) (st st2 : PState) (order2 : List Nat),
      waitWhile cond fails st order = some (st2, order2) → cond st2 = false := by
  intro order
  induction order with
  | nil =>
    intro st st2 o2 h
    simp only [waitWhile] at h
    split at h
    next => exact Option.noConfusion h
    next hc =>
      simp only [Option.some.injEq, Prod.mk.injEq] at h
      obtain ⟨h1, _⟩ := h
      subst h1
      simpa using hc
  | cons p rest ih =>
    intro st st2 o2 h
    simp only [waitWhile] at h
    split at h
    next =>
      cases hcc : consumeCompletion fails st p with
      | none => rw [hcc] at h; exact Option.noConfusion h
      | some st1 => rw [hcc] at h; exact ih st1 st2 o2 h
    next hc =>
      simp only [Option.some.injEq, Prod.mk.injEq] at h
      obtain ⟨h1, _⟩ := h
      subst h1
      simpa using hc

/-- Helper: any property preserved by single completions is preserved by a
wait. -/
theorem waitWhile_preserve (cond : PState → Bool) (fails : Nat → Bool)
    (P : PState → Prop)
    (hstep : ∀ st p st1, consumeCompletion fails st p = some st1 → P st → P st1) :
    ∀ (order : List Nat) (st st2 : PState) (order2 : List Nat),
      waitWhile cond fails st order = some (st2, order2) → P st → P st2 := by
  intro order
  induction order with
  | nil =>
    intro st st2 o2 h hP
    simp only [waitWhile] at h
    split at h
    next => exact Option.noConfusion h
    next =>
      simp only [Option.some.injEq, Prod.mk.injEq] at h
      obtain ⟨h1, _⟩ := h
      subst h1
      exact hP
  | cons p rest ih =>
    intro st st2 o2 h hP
    simp only [waitWhile] at h
    split at h
    next =>
      cases hcc : consumeCompletion fails st p with
      | none => rw [hcc] at h; exact Option.noConfusion h
      | some st1 => rw [hcc] at h; exact ih st1 st2 o2 h (hstep st p st1 hcc hP)
    next =>
      simp only [Option.some.injEq, Prod.mk.injEq] at h
      obtain ⟨h1, _⟩ := h
      subst h1
      exact hP

/-- Helper: a completion only touches inFlight and the error fields. -/
theorem consumeCompletion_fields (fails : Nat → Bool) (st st1 : PState) (p : Nat)
    (h : consumeCompletion fails st p = some st1) :
    st1.buf = st.buf ∧ st1.dirty = st.dirty ∧ st1.chunkCount = st.chunkCount ∧
      st1.dispatched = st.dispatched := by
  unfold consumeCompletion at h
  split at h
  next =>
    injection h with h1
    subst h1
    exact ⟨rfl, rfl, rfl, rfl⟩
  next => exact Option.noConfusion h

/-- Helper: the single-set first-error protocol: either no error has been
recorded, or has_upload_error is set and first_upload_error holds the part
index of a genuinely failed upload. -/
theorem consumeCompletion_error_inv (fails : Nat → Bool) (st st1 : PState) (p : Nat)
    (h : consumeCompletion fails st p = some st1)
    (hP : (st.hasError = false ∧ st.firstError = none) ∨
          (st.hasError = true ∧ ∃ q, st.firstError = some q ∧ fails q = true)) :
    (st1.hasError = false ∧ st1.firstError = none) ∨
    (st1.hasError = true ∧ ∃ q, st1.firstError = some q ∧ fails q = true) := by
  unfold consumeCompletion at h
  split at h
  next =>
    injection h with h1
    subst h1
    rcases hP with ⟨he, hf⟩ | ⟨he, q, hf, hq⟩
    · by_cases hfp : fails p = true
      · right
        exact ⟨by simp [he, hfp], p, by simp [he, hfp], hfp⟩
      · left
        have hfp2 : fails p = false := by simpa using hfp
        exact ⟨by simp [he, hfp2], by simp [he, hfp2, hf]⟩
    · right
      exact ⟨by simp [he], q, by simp [he, hf], hq⟩
  next => exact Option.noConfusion h

/-- Helper: the tail of Close on an already-flushed entry state with no
recorded error: it drains every in-flight upload, ends quiescent, and then
returns normally iff no uploader failed, raising the captured first error
otherwise. -/
theorem close_spec_flushed (W : Nat) (fails : Nat → Bool) (st : PState)
    (order : List Nat) (res : PState × Option UploadError × List Nat)
    (hbuf : st.buf = 0) (hdirty : st.dirty = false)
    (herr : st.hasError = false) (hfe : st.firstError = none)
    (hcc : st.chunkCount = 0 → st.inFlight = [])
    (hrun : Close W fails st order = some res) :
    res.1.buf = 0 ∧ res.1.dirty = false ∧ res.1.inFlight = [] ∧
    (res.2.1 = none → res.1.hasError = false ∧ res.1.firstError = none) ∧
    (∀ u, res.2.1 = some u →
      ∃ p, u = UploadError.captured p ∧ fails p = true ∧
        res.1.firstError = some p ∧ res.1.hasError = true) := by
  have hcond : ¬(st.buf ≠ 0 ∨ st.dirty = true) := by simp [hbuf, hdirty]
  have hclose : Close W fails st order =
      (if 0 < st.chunkCount then
        match waitWhile (fun s => !s.inFlight.isEmpty) fails st order with
        | none => none
        | some (st2, order2) =>
          if st2.hasError then some (st2, some (raisedError st2), order2)
          else some (st2, none, order2)
      else some (st, none, order)) := by
    unfold Close
    rw [if_neg hcond]
  rw [hclose] at hrun
  by_cases hc : 0 < st.chunkCount
  · rw [if_pos hc] at hrun
    cases hww : waitWhile (fun s => !s.inFlight.isEmpty) fails st order with
    | none => rw [hww] at hrun; exact Option.noConfusion hrun
    | some pr =>
      obtain ⟨st2, order2⟩ := pr
      rw [hww] at hrun
      have hrun2 : (if st2.hasError = true then some (st2, some (raisedError st2), order2)
          else some (st2, none, order2)) = some res := hrun
      have hexit := waitWhile_exit_cond _ fails order st st2 order2 hww
      have hfl2 : st2.inFlight = [] := by
        have hie : st2.inFlight.isEmpty = true := by simpa using hexit
        simpa using hie
      have hfields := waitWhile_preserve _ fails (fun s => s.buf = 0 ∧ s.dirty = false)
        (fun s p s1 hcons hP => by
          obtain ⟨h1, h2, _, _⟩ := consumeCompletion_fields fails s s1 p hcons
          exact ⟨h1.trans hP.1, h2.trans hP.2⟩)
        order st st2 order2 hww ⟨hbuf, hdirty⟩
      have herrinv := waitWhile_preserve _ fails
        (fun s => (s.hasError = false ∧ s.firstError = none) ∨
          (s.hasError = true ∧ ∃ q, s.firstError = some q ∧ fails q = true))
        (fun s p s1 hcons hP => consumeCompletion_error_inv fails s s1 p hcons hP)
        order st st2 order2 hww (Or.inl ⟨herr, hfe⟩)
      by_cases he2 : st2.hasError = true
      · rw [if_pos he2] at hrun2
        injection hrun2 with h1
        subst h1
        rcases herrinv with ⟨hf, _⟩ | ⟨_, q, hq1, hq2⟩
        · rw [hf] at he2; exact absurd he2 (by simp)
        · refine ⟨hfields.1, hfields.2, hfl2, ?_, ?_⟩
          · intro hnone; exact absurd hnone (by simp)
          · intro u hu
            have hr : raisedError st2 = UploadError.captured q := by
              unfold raisedError; rw [hq1]
            injection hu with hu1
            exact ⟨q, by rw [← hu1, hr], hq2, hq1, he2⟩
      · rw [if_neg he2] at hrun2
        injection hrun2 with h1
        subst h1
        rcases herrinv with ⟨hf1, hf2⟩ | ⟨he, _⟩
        · exact ⟨hfields.1, hfields.2, hfl2, fun _ => ⟨hf1, hf2⟩,
            fun u hu => absurd hu (by simp)⟩
        · exact absurd he he2
  · rw [if_neg hc] at hrun
    injection hrun with h1
    subst h1
    have hfl : st.inFlight = [] := hcc (by omega)
    exact ⟨hbuf, hdirty, hfl, fun _ => ⟨herr, hfe⟩, fun u hu => absurd hu (by simp)⟩

/-- Claim C7 counterexample: the claim says close() returns only once every
dispatched uploader has completed or reported failure
(uploads_in_progress = 0) and raises the captured first error only after
that quiescence. That fails on the code in two reachable entry
situations. First state: part 0 already failed (error recorded) while part
1 is still in flight and 2 bytes sit in the dirty buffer; Close goes flush
first, and FlushChunk re-raises the captured error for part 0 via
CheckUploadErrors before the uploads_in_progress = 0 wait is ever reached:
the run ends raising with part 1 still in flight (inFlight = [1], not []).
Second state: no error recorded yet but the pipeline is at full width
W = 2; the flush backpressure wait consumes the failing completion of part
0, and the re-check after the wait raises the captured error, again with
part 1 still in flight. -/
theorem close_raises_before_quiescence :
    Close 2 (fun q => q == 0) closeErrorEntryState [] =
      some (closeErrorEntryState, some (UploadError.captured 0), []) ∧
    closeErrorEntryState.inFlight = [1] ∧
    Close 2 (fun q => q == 0) closeFullWidthEntryState [0] =
      some (closeErrorEntryState, some (UploadError.captured 0), []) ∧
    ([1] : List Nat) ≠ [] :=
  ⟨rfl, rfl, rfl, by decide⟩

/-- Claim C7 as amended: on every close-entry state in which no upload
error has been recorded yet and uploads_in_progress is below
max_concurrent_uploads (so the flush step cannot observe an error; the
other hypotheses are the reachable-producer invariants: dirty iff nonempty
buffer, every in-flight part already dispatched), Close first flushes the
accumulating buffer, then returns only after every dispatched uploader has
completed or reported failure (uploads_in_progress = 0, the in-flight list
empty); after that quiescence it returns normally with an empty
first-error slot when no uploader failed, and raises the captured first
upload error - the first genuinely failed part in completion order - when
one was recorded. When an error was already recorded at entry, or arrives
during the flush wait at full width, Close instead raises that captured
first error out of the flush step, possibly before the remaining uploaders
have finished (see the counterexample above). -/
theorem close_waits_and_raises_first_error (W : Nat) (fails : Nat → Bool)
    (st : PState) (order : List Nat) (res : PState × Option UploadError × List Nat)
    (hdirty : st.dirty = true ↔ st.buf ≠ 0)
    (herr : st.hasError = false) (hfe : st.firstError = none)
    (hin : st.inFlight.length < W)
    (hcc : st.chunkCount = 0 → st.inFlight = [])
    (hrun : Close W fails st order = some res) :
    res.1.buf = 0 ∧ res.1.dirty = false ∧ res.1.inFlight = [] ∧
    (res.2.1 = none → res.1.hasError = false ∧ res.1.firstError = none) ∧
    (∀ u, res.2.1 = some u →
      ∃ p, u = UploadError.captured p ∧ fails p = true ∧
        res.1.firstError = some p ∧ res.1.hasError = true) := by
  by_cases hbuf : st.buf = 0
  · have hd : st.dirty = false := by
      by_cases hdt : st.dirty = true
      · exact absurd hbuf (hdirty.mp hdt)
      · simpa using hdt
    exact close_spec_flushed W fails st order res hbuf hd herr hfe hcc hrun
  · have hd : st.dirty = true := hdirty.mpr hbuf
    have hwait : waitWhile (fun s => decide (W ≤ s.inFlight.length) && !s.hasError)
        fails st order = some (st, order) := by
      apply waitWhile_not_cond
      simp only [herr, Bool.not_false, Bool.and_true, decide_eq_false_iff_not]
      omega
    have hflush : Flush W fails st order =
        some ({ st with
                  buf := 0, dirty := false, chunkCount := st.chunkCount + 1,
                  inFlight := st.inFlight ++ [st.chunkCount],
                  dispatched := st.dispatched ++ [(st.chunkCount, st.chunkCount != 0)] },
              none, order) := by
      unfold Flush FlushChunk
      rw [if_pos ⟨hbuf, hd⟩, if_neg hbuf, if_neg (by simp [herr]), hwait]
      simp [herr]
    have hstep : Close W fails st order =
        Close W fails
          { st with
              buf := 0, dirty := false, chunkCount := st.chunkCount + 1,
              inFlight := st.inFlight ++ [st.chunkCount],
              dispatched := st.dispatched ++ [(st.chunkCount, st.chunkCount != 0)] }
          order := by
      conv_lhs => unfold Close
      conv_rhs => unfold Close
      rw [if_pos (Or.inl hbuf), hflush, if_neg (by simp)]
    rw [hstep] at hrun
    exact close_spec_flushed W fails
      { st with
          buf := 0, dirty := false, chunkCount := st.chunkCount + 1,
          inFlight := st.inFlight ++ [st.chunkCount],
          dispatched := st.dispatched ++ [(st.chunkCount, st.chunkCount != 0)] }
      order res rfl rfl herr hfe (fun h => absurd h (by simp)) hrun

/-- Witness for claim C7: one chunk in flight, a dirty 3-byte buffer,
completion order [0, 1] with part 1 failing: Close flushes part 1, drains
both uploads, ends quiescent and raises the captured error for part 1. -/
theorem close_waits_and_raises_first_error_witness :
    (closeExitState.buf = 0 ∧ closeExitState.dirty = false ∧
      closeExitState.inFlight = [] ∧
      ((some (UploadError.captured 1) : Option UploadError) = none →
        closeExitState.hasError = false ∧ closeExitState.firstError = none) ∧
      (∀ u, (some (UploadError.captured 1) : Option UploadError) = some u →
        ∃ p, u = UploadError.captured p ∧ (fun q => q == 1) p = true ∧
          closeExitState.firstError = some p ∧ closeExitState.hasError = true)) :=
  close_waits_and_raises_first_error 2 (fun q => q == 1) closeEntryState [0, 1]
    (closeExitState, some (UploadError.captured 1), [])
    (by decide) rfl rfl (by decide) (by decide) rfl

end SSHFS
